import Mathlib

/-!
# TI BQ2022 battery identification chip driver (`drivers/w1/slaves/w1_bq2022.c`)

A shallow embedding of the driver and the properties of its read protocol and
of its battery-id decoder.

* The two file-scope statics `batt_crypt_info` and `bq2022_slave` are fields of
  an explicit state record, which every driver function takes and returns.
* The one-wire transport (`w1_reset_bus`, `w1_write_block`, `w1_read_8`,
  `w1_read_block`, `w1_calc_crc8`) lives in the w1 core, outside this file. It
  is a parameter: an arbitrary deterministic machine over a state type `β`.
  Every transport call is recorded in a trace so that bus activity can be
  counted.
* What C leaves to the implementation (byte order of the `unsigned int` loads,
  signedness of plain `char`) is a parameter too, see `Abi`.
-/

namespace W1Bq2022

/-! ## Data model -/

/-- One byte of storage (`u8`, or the bit pattern of a `char`). -/
abbrev Byte := Fin 256

/-- The type of `batt_crypt_info`, `char [128]`: one byte per index 0..127. -/
abbrev Block := Fin 128 → Byte

/-- The implementation-defined parts of C that the two `GEN_PSEUDO_*` macros
depend on. `bigEndian`: byte order of a 32-bit load. `charSigned`: whether plain
`char` is a signed type, so that converting it to `unsigned int` sign-extends. -/
structure Abi where
  bigEndian : Bool
  charSigned : Bool
  deriving DecidableEq

/-- The ABI of the 32-bit little-endian ARM targets this kernel tree is built
for: plain `char` is unsigned there. -/
def armLE : Abi := { bigEndian := false, charSigned := false }

/-- The value of `*((unsigned int *)p)` when the four bytes at `p`, `p+1`,
`p+2`, `p+3` are `b0`, `b1`, `b2`, `b3`. -/
def loadWord (abi : Abi) (b0 b1 b2 b3 : Byte) : Nat :=
  if abi.bigEndian then
    b3.val + 256 * b2.val + 65536 * b1.val + 16777216 * b0.val
  else
    b0.val + 256 * b1.val + 65536 * b2.val + 16777216 * b3.val

/-- The conversion `(unsigned int)c` of a plain `char` holding the bit pattern
`c`: the value itself when `char` is unsigned, the sign-extended value modulo
`2^32` when `char` is signed. -/
def charToUInt (abi : Abi) (c : Byte) : Nat :=
  if abi.charSigned && decide (128 ≤ c.val) then c.val + 0xFFFFFF00 else c.val

def HDQ_CMD_SKIP_ROM : Byte := 0xCC
def HDQ_CMD_READ_FIELD : Byte := 0xF0

def CRYPT_COMMON_HEADER : Nat := 0xE54C21ED

def BQ2022_ID_SAMSUNG_XWD : Nat := 0x10139461
def BQ2022_ID_GUANGYU : Nat := 0x10139462
def BQ2022_ID_SONY_XWD : Nat := 0x10139463
def BQ2022_ID_SAMSUNG_XWD_CD : Nat := 0x10139464
def BQ2022_ID_LG_DESA : Nat := 0x10139465
def BQ2022_ID_SONY_FMT : Nat := 0x10139466
def BQ2022_ID_RUISHENG : Nat := 0x10139467
def BQ2022_ID_DELSA : Nat := 0x8412E562
def BQ2022_ID_AAC : Nat := 0xAACAACAA
def BQ2022_ID_COSLIGHT : Nat := 0xDF0C7A62
def BQ2022_ID_SAMSUNG_FMT : Nat := 0xF40E9762

/-- `GEN_PSEUDO_INFO(ptr)`:
`((*((unsigned int *)&ptr[60])) & 0xFFFFFF00) | ((unsigned int)ptr[8])`. -/
def GEN_PSEUDO_INFO (abi : Abi) (ptr : Block) : Nat :=
  (loadWord abi (ptr 60) (ptr 61) (ptr 62) (ptr 63) &&& 0xFFFFFF00) ||| charToUInt abi (ptr 8)

/-- `GEN_PSEUDO_HEADER(ptr)`: `*((unsigned int *)&ptr[0])`. -/
def GEN_PSEUDO_HEADER (abi : Abi) (ptr : Block) : Nat :=
  loadWord abi (ptr 0) (ptr 1) (ptr 2) (ptr 3)

/-- A `struct w1_slave`; the driver only ever reads its `master` field, a
handle of the bus master the chip sits on. -/
structure W1Slave where
  master : Nat
  deriving DecidableEq

/-- One call into the one-wire transport, with what it returned. -/
inductive BusEvent where
  | reset (master : Nat) (rc : Int)
  | writeBlock (master : Nat) (buf : List Byte)
  | read8 (master : Nat) (value : Byte)
  | readBlock (master : Nat) (len : Nat) (data : List Byte)
  deriving DecidableEq

/-- The state the driver runs in: its two statics, the state of the transport,
and the trace of the transport calls made so far. -/
structure Sys (β : Type) where
  batt_crypt_info : Block
  bq2022_slave : Option W1Slave
  bus : β
  trace : List BusEvent

/-- The one-wire transport of the w1 core, as a deterministic machine over `β`.
`w1_reset_bus` returns non-zero when no device answered; `w1_read_block dev len`
delivers `len` bytes. -/
structure W1Bus (β : Type) where
  w1_reset_bus : Nat → β → Int × β
  w1_write_block : Nat → List Byte → β → β
  w1_read_8 : Nat → β → Byte × β
  w1_read_block : Nat → (len : Nat) → β → (Fin len → Byte) × β
  w1_calc_crc8 : List Byte → Byte

/-! ## Presence query and decoder -/

/-- `int w1_bq2022_has_slave(void)`: `bq2022_slave != NULL`. -/
def w1_bq2022_has_slave {β : Type} (s : Sys β) : Int × Sys β :=
  (if s.bq2022_slave ≠ none then 1 else 0, s)

/-- `int w1_bq2022_battery_id(void)`. The header check returns `ret = 0` early;
the `switch` has no `default`, so `ret` keeps its initial 0 when no case
matches. The two log lines are not modelled. -/
def w1_bq2022_battery_id {β : Type} (abi : Abi) (s : Sys β) : Int × Sys β :=
  let ret : Int := 0
  if GEN_PSEUDO_HEADER abi s.batt_crypt_info ≠ CRYPT_COMMON_HEADER then
    (ret, s)
  else
    let pseduo_info := GEN_PSEUDO_INFO abi s.batt_crypt_info
    if pseduo_info = BQ2022_ID_LG_DESA ∨ pseduo_info = BQ2022_ID_COSLIGHT then
      (0x30000, s)
    else if pseduo_info = BQ2022_ID_SAMSUNG_XWD ∨ pseduo_info = BQ2022_ID_AAC
        ∨ pseduo_info = BQ2022_ID_SAMSUNG_FMT then
      (0x40000, s)
    else if pseduo_info = BQ2022_ID_SONY_XWD ∨ pseduo_info = BQ2022_ID_SONY_FMT
        ∨ pseduo_info = BQ2022_ID_DELSA then
      (0x50000, s)
    else if pseduo_info = BQ2022_ID_GUANGYU then
      (0x60000, s)
    else if pseduo_info = BQ2022_ID_RUISHENG then
      (0x70000, s)
    else if pseduo_info = BQ2022_ID_SAMSUNG_XWD_CD then
      (0x80000, s)
    else
      (ret, s)

/-! ## The read protocol -/

/-- The bytes of a block in index order, as `w1_calc_crc8(batt_crypt_info, 128)`
walks them. -/
def blockBytes (blk : Block) : List Byte :=
  (List.range 128).map (fun i => blk ⟨i % 128, Nat.mod_lt i (by decide)⟩)

/-- The call `w1_reset_bus(master)`, recorded in the trace. -/
def busReset {β : Type} (B : W1Bus β) (master : Nat) (s : Sys β) : Int × Sys β :=
  let r := B.w1_reset_bus master s.bus
  (r.1, { s with bus := r.2, trace := s.trace ++ [BusEvent.reset master r.1] })

/-- The call `w1_write_block(master, buf, len)`, recorded in the trace. -/
def busWriteBlock {β : Type} (B : W1Bus β) (master : Nat) (buf : List Byte) (s : Sys β) :
    Sys β :=
  { s with bus := B.w1_write_block master buf s.bus,
           trace := s.trace ++ [BusEvent.writeBlock master buf] }

/-- The call `w1_read_8(master)`, recorded in the trace. -/
def busRead8 {β : Type} (B : W1Bus β) (master : Nat) (s : Sys β) : Byte × Sys β :=
  let r := B.w1_read_8 master s.bus
  (r.1, { s with bus := r.2, trace := s.trace ++ [BusEvent.read8 master r.1] })

/-- The call `w1_read_block(master, batt_crypt_info, 128)`, recorded in the
trace: the transport stores the 128 bytes it delivers straight into the static
buffer. -/
def busReadBlockIntoCache {β : Type} (B : W1Bus β) (master : Nat) (s : Sys β) : Sys β :=
  let r := B.w1_read_block master 128 s.bus
  { s with batt_crypt_info := r.1, bus := r.2,
           trace := s.trace ++ [BusEvent.readBlock master 128 (blockBytes r.1)] }

/-- How one pass through the code below the `retry:` label ends, once the retry
counter has let it start: at one of the three `goto retry`, or at `return 0`.
The last two carry the 128 bytes that pass delivered and the trailing byte read
after them. -/
inductive Attempt where
  | resetFailed
  | comCrcErr
  | dataCrcErr (data : Block) (crc : Byte)
  | success (data : Block) (crc : Byte)

/-- Whether the pass ended at a `goto retry`. -/
def Attempt.failed : Attempt → Bool
  | .success _ _ => false
  | _ => true

/-- Whether the pass ended before the call of `w1_read_block`. -/
def Attempt.beforeBlockRead : Attempt → Bool
  | .resetFailed => true
  | .comCrcErr => true
  | _ => false

/-- One pass through lines 122 to 155 of `w1_bq2022_read`: reset, the 4-byte
command, the command CRC, the 128-byte read into `batt_crypt_info`, the data
CRC. -/
def w1_bq2022_attempt {β : Type} (B : W1Bus β) (master : Nat) (s : Sys β) :
    Attempt × Sys β :=
  let r1 := busReset B master s
  if r1.1 ≠ 0 then
    (Attempt.resetFailed, r1.2)
  else
    let cmd : List Byte := [HDQ_CMD_SKIP_ROM, HDQ_CMD_READ_FIELD, 0x0, 0x0]
    let s2 := busWriteBlock B master cmd r1.2
    let r3 := busRead8 B master s2
    let crc := r3.1
    let calc_crc := B.w1_calc_crc8 ((cmd.drop 1).take 3)
    if calc_crc ≠ crc then
      (Attempt.comCrcErr, r3.2)
    else
      let s4 := busReadBlockIntoCache B master r3.2
      let r5 := busRead8 B master s4
      let crc := r5.1
      let calc_crc := B.w1_calc_crc8 (blockBytes s4.batt_crypt_info)
      if calc_crc ≠ crc then
        (Attempt.dataCrcErr s4.batt_crypt_info crc, r5.2)
      else
        (Attempt.success s4.batt_crypt_info crc, r5.2)

/-- The `retry:` loop of `w1_bq2022_read`, by the value of `retries` on arrival
at the label: `if (!(retries--)) return -1;`, then one pass; each `goto retry`
comes back here with the counter one lower. -/
def w1_bq2022_read_retry {β : Type} (B : W1Bus β) (master : Nat) : Nat → Sys β → Int × Sys β
  | 0, s => (-1, s)
  | retries + 1, s =>
    match w1_bq2022_attempt B master s with
    | (Attempt.success _ _, s') => (0, s')
    | (_, s') => w1_bq2022_read_retry B master retries s'

/-- `static int w1_bq2022_read(void)`: fails at once without a tracked slave,
otherwise enters the retry loop with `retries = 5`. -/
def w1_bq2022_read {β : Type} (B : W1Bus β) (s : Sys β) : Int × Sys β :=
  match s.bq2022_slave with
  | none => (-1, s)
  | some sl => w1_bq2022_read_retry B sl.master 5 s

/-- `static int w1_bq2022_add_slave(struct w1_slave *sl)`; a null `sl` is
`none`. -/
def w1_bq2022_add_slave {β : Type} (B : W1Bus β) (sl : Option W1Slave) (s : Sys β) :
    Int × Sys β :=
  w1_bq2022_read B { s with bq2022_slave := sl }

/-- `static void w1_bq2022_remove_slave(struct w1_slave *sl)`. -/
def w1_bq2022_remove_slave {β : Type} (_sl : Option W1Slave) (s : Sys β) : Sys β :=
  { s with bq2022_slave := none }

/-! ## Runs of the driver -/

/-- The state after `n` passes of the retry loop, whatever their outcome. -/
def afterAttempts {β : Type} (B : W1Bus β) (master : Nat) : Nat → Sys β → Sys β
  | 0, s => s
  | n + 1, s => afterAttempts B master n (w1_bq2022_attempt B master s).2

/-- The outcome the pass numbered `j` (from 0) has when the loop gets to it. -/
def attemptOutcome {β : Type} (B : W1Bus β) (master : Nat) (s : Sys β) (j : Nat) : Attempt :=
  (w1_bq2022_attempt B master (afterAttempts B master j s)).1

/-- The all-zero block a zero-initialised `static char [128]` starts as. -/
def zeroBlock : Block := fun _ => 0

/-- The state at module load: no tracked slave, all-zero buffer. -/
def initial {β : Type} (bus : β) : Sys β :=
  { batt_crypt_info := zeroBlock, bq2022_slave := none, bus := bus, trace := [] }

/-- A call the w1 core makes through `w1_bq2022_fops`. -/
inductive Call where
  | attach (sl : Option W1Slave)
  | detach (sl : Option W1Slave)

/-- Effect of one call on the state; the return value of `attach` is dropped. -/
def step {β : Type} (B : W1Bus β) (s : Sys β) : Call → Sys β
  | Call.attach sl => (w1_bq2022_add_slave B sl s).2
  | Call.detach sl => w1_bq2022_remove_slave sl s

/-- The state after a sequence of calls. -/
def run {β : Type} (B : W1Bus β) (s : Sys β) (calls : List Call) : Sys β :=
  calls.foldl (step B) s

/-- Number of `w1_reset_bus` calls in a trace. -/
def countResets (t : List BusEvent) : Nat :=
  (t.filter (fun e => match e with | BusEvent.reset _ _ => true | _ => false)).length

/-- Whether a trace has a `w1_read_block` call. -/
def hasBlockRead (t : List BusEvent) : Bool :=
  t.any (fun e => match e with | BusEvent.readBlock _ _ _ => true | _ => false)

/-- The bytes the buffer holds after the transport calls of a trace, when it
held `init` before them: those delivered by the last `w1_read_block`, if there
was one. -/
def cacheAfter (init : List Byte) (t : List BusEvent) : List Byte :=
  t.foldl (fun acc e => match e with | BusEvent.readBlock _ _ d => d | _ => acc) init

/-- The buffers handed to `w1_write_block` in a trace, in order. -/
def writtenBlocks (t : List BusEvent) : List (List Byte) :=
  t.filterMap (fun e => match e with | BusEvent.writeBlock _ buf => some buf | _ => none)

/-- Of the four bytes at 60..63, the index of the one that holds bits 0..7 of
the word loaded by `*((unsigned int *)&ptr[60])`. -/
def lowByteIndex (abi : Abi) : Fin 128 :=
  if abi.bigEndian then 63 else 60

/-! ## Concrete instances

A CRC-8 and a scripted transport, to evaluate the driver on concrete inputs.
`w1_calc_crc8` of the w1 core is table-driven; `crc8` below is the bitwise form
of the same Dallas/Maxim polynomial. No theorem about the driver depends on it:
they are stated for an arbitrary transport. -/

/-- One bit of the Dallas/Maxim CRC-8 (reflected polynomial `0x8C`). -/
def crc8Bit (crc bit : Nat) : Nat :=
  if (crc ^^^ bit) % 2 = 1 then (crc / 2) ^^^ 0x8C else crc / 2

/-- One byte of the CRC, least significant bit first. -/
def crc8Byte (crc byte : Nat) : Nat :=
  (List.range 8).foldl (fun c i => crc8Bit c (byte / 2 ^ i)) crc

/-- CRC-8 of a byte string, initial value 0. -/
def crc8 (data : List Byte) : Byte :=
  ⟨(data.foldl (fun c b => crc8Byte c b.val) 0) % 256, Nat.mod_lt _ (by decide)⟩

/-- What a scripted transport answers during one pass of the retry loop. -/
structure Reply where
  rc : Int
  comCrc : Byte
  data : Block
  dataCrc : Byte

/-- State of the scripted transport: resets seen so far, and whether a block was
read since the last reset. -/
structure ScriptState where
  resets : Nat
  afterBlock : Bool
  deriving DecidableEq

/-- The transport that answers the pass numbered `j` (from 0) with `script j`. -/
def scriptBus (script : Nat → Reply) : W1Bus ScriptState where
  w1_reset_bus := fun _ b => ((script b.resets).rc, { resets := b.resets + 1, afterBlock := false })
  w1_write_block := fun _ _ b => b
  w1_read_8 := fun _ b =>
    (if b.afterBlock then (script (b.resets - 1)).dataCrc else (script (b.resets - 1)).comCrc, b)
  w1_read_block := fun _ _ b =>
    (fun i => if h : i.val < 128 then (script (b.resets - 1)).data ⟨i.val, h⟩ else 0,
     { b with afterBlock := true })
  w1_calc_crc8 := crc8

/-- A little-endian block with the magic header, identifier `id` spread over
bytes 8 and 61..63, `b60` at byte 60 and `fill` everywhere else. -/
def idBlock (id : Nat) (b60 fill : Byte) : Block := fun i =>
  if i = 0 then 0xED else if i = 1 then 0x21 else if i = 2 then 0x4C else if i = 3 then 0xE5
  else if i = 8 then ⟨id % 256, Nat.mod_lt _ (by decide)⟩
  else if i = 60 then b60
  else if i = 61 then ⟨id / 256 % 256, Nat.mod_lt _ (by decide)⟩
  else if i = 62 then ⟨id / 65536 % 256, Nat.mod_lt _ (by decide)⟩
  else if i = 63 then ⟨id / 16777216 % 256, Nat.mod_lt _ (by decide)⟩
  else fill

/-- A state with the given cached block, no slave, and a transport without
state. -/
def cached (blk : Block) : Sys Unit :=
  { batt_crypt_info := blk, bq2022_slave := none, bus := (), trace := [] }

/-- A state that tracks a slave on master 0, with the given cached block and
transport state. -/
def tracked {β : Type} (blk : Block) (bus : β) : Sys β :=
  { batt_crypt_info := blk, bq2022_slave := some { master := 0 }, bus := bus, trace := [] }

/-- Scripted answer: no presence pulse, `w1_reset_bus` returns 1. -/
def replyResetFailed : Reply :=
  { rc := 1, comCrc := 0, data := zeroBlock, dataCrc := 0 }

/-- Scripted answer: a command CRC that is off by one. -/
def replyComCrcErr : Reply :=
  { rc := 0, comCrc := crc8 [0xF0, 0x00, 0x00] + 1, data := zeroBlock, dataCrc := 0 }

/-- Scripted answer: block `blk` followed by a data CRC that is off by one. -/
def replyDataCrcErr (blk : Block) : Reply :=
  { rc := 0, comCrc := crc8 [0xF0, 0x00, 0x00], data := blk, dataCrc := crc8 (blockBytes blk) + 1 }

/-- Scripted answer: block `blk` followed by its CRC. -/
def replyGood (blk : Block) : Reply :=
  { rc := 0, comCrc := crc8 [0xF0, 0x00, 0x00], data := blk, dataCrc := crc8 (blockBytes blk) }

/-- Scripted transport: four resets without presence pulse, then a block with
the magic header and identifier 0x10139461 whose data CRC does not match. -/
def staleOverwriteBus : W1Bus ScriptState :=
  scriptBus (fun j => if j < 4 then replyResetFailed else replyDataCrcErr (idBlock 0x10139461 0 0))

/-- Scripted transport: every pass delivers a block with the magic header and
identifier 0x10139461, and a data CRC that does not match. -/
def neverVerifiedBus : W1Bus ScriptState :=
  scriptBus (fun _ => replyDataCrcErr (idBlock 0x10139461 0 0))

/-- Scripted transport: a reset failure, a command CRC error, then block
`idBlock 0x10139461 0 0` with matching CRCs. -/
def thirdTimeBus : W1Bus ScriptState :=
  scriptBus (fun j =>
    if j = 0 then replyResetFailed else if j = 1 then replyComCrcErr
    else replyGood (idBlock 0x10139461 0 0))

/-- Scripted transport: the three kinds of failure in turn, never a success. -/
def mixedFailureBus : W1Bus ScriptState :=
  scriptBus (fun j =>
    if j % 3 = 0 then replyResetFailed else if j % 3 = 1 then replyComCrcErr
    else replyDataCrcErr zeroBlock)

/-- Scripted transport on which no reset ever sees a presence pulse. -/
def absentBus : W1Bus ScriptState :=
  scriptBus (fun _ => replyResetFailed)

/-- Scripted transport: reset failures and command CRC errors in turn; no pass
gets to the block read. -/
def noBlockBus : W1Bus ScriptState :=
  scriptBus (fun j => if j % 2 = 0 then replyResetFailed else replyComCrcErr)

/-! ## Lemmas on the two macros -/

/-- Masking a 32-bit word with `0xFFFFFF00` clears its low 8 bits. -/
theorem and_high_mask (w : Nat) (h : w < 2 ^ 32) : w &&& 0xFFFFFF00 = 256 * (w / 256) := by
  apply Nat.eq_of_testBit_eq
  intro i
  have e : (0xFFFFFF00 : Nat) = (2 ^ 24 - 1) <<< 8 := by decide
  have e2 : (256 : Nat) = 2 ^ 8 := by decide
  rw [Nat.testBit_and, e, Nat.testBit_shiftLeft, Nat.testBit_two_pow_sub_one, e2,
    Nat.testBit_mul_pow_two, ← Nat.shiftRight_eq_div_pow, Nat.testBit_shiftRight]
  by_cases h8 : 8 ≤ i
  · have e3 : 8 + (i - 8) = i := by omega
    by_cases h32 : i < 32
    · have : i - 8 < 24 := by omega
      simp [h8, this, e3]
    · have hw : w.testBit i = false :=
        Nat.testBit_lt_two_pow (lt_of_lt_of_le h (Nat.pow_le_pow_right (by decide) (by omega)))
      simp [hw, e3]
  · simp [h8]

/-- A loaded word fits 32 bits. -/
theorem loadWord_lt (abi : Abi) (b0 b1 b2 b3 : Byte) : loadWord abi b0 b1 b2 b3 < 2 ^ 32 := by
  unfold loadWord
  have h0 := b0.isLt
  have h1 := b1.isLt
  have h2 := b2.isLt
  have h3 := b3.isLt
  split <;> omega

/-- C1. On every cached block whose header word is 0xE54C21ED, the decoder
returns the documented code for each of the 11 identifier constants the
pseudo-identifier can equal: 0x10139465, 0xDF0C7A62 give 0x30000; 0x10139461,
0xAACAACAA, 0xF40E9762 give 0x40000; 0x10139463, 0x10139466, 0x8412E562 give
0x50000; 0x10139462 gives 0x60000; 0x10139467 gives 0x70000; 0x10139464 gives
0x80000. -/
theorem battery_id_known {β : Type} (abi : Abi) (s : Sys β)
    (hh : GEN_PSEUDO_HEADER abi s.batt_crypt_info = 0xE54C21ED) :
    (GEN_PSEUDO_INFO abi s.batt_crypt_info = 0x10139465 →
        (w1_bq2022_battery_id abi s).1 = 0x30000)
    ∧ (GEN_PSEUDO_INFO abi s.batt_crypt_info = 0xDF0C7A62 →
        (w1_bq2022_battery_id abi s).1 = 0x30000)
    ∧ (GEN_PSEUDO_INFO abi s.batt_crypt_info = 0x10139461 →
        (w1_bq2022_battery_id abi s).1 = 0x40000)
    ∧ (GEN_PSEUDO_INFO abi s.batt_crypt_info = 0xAACAACAA →
        (w1_bq2022_battery_id abi s).1 = 0x40000)
    ∧ (GEN_PSEUDO_INFO abi s.batt_crypt_info = 0xF40E9762 →
        (w1_bq2022_battery_id abi s).1 = 0x40000)
    ∧ (GEN_PSEUDO_INFO abi s.batt_crypt_info = 0x10139463 →
        (w1_bq2022_battery_id abi s).1 = 0x50000)
    ∧ (GEN_PSEUDO_INFO abi s.batt_crypt_info = 0x10139466 →
        (w1_bq2022_battery_id abi s).1 = 0x50000)
    ∧ (GEN_PSEUDO_INFO abi s.batt_crypt_info = 0x8412E562 →
        (w1_bq2022_battery_id abi s).1 = 0x50000)
    ∧ (GEN_PSEUDO_INFO abi s.batt_crypt_info = 0x10139462 →
        (w1_bq2022_battery_id abi s).1 = 0x60000)
    ∧ (GEN_PSEUDO_INFO abi s.batt_crypt_info = 0x10139467 →
        (w1_bq2022_battery_id abi s).1 = 0x70000)
    ∧ (GEN_PSEUDO_INFO abi s.batt_crypt_info = 0x10139464 →
        (w1_bq2022_battery_id abi s).1 = 0x80000) := by
  refine ⟨?_, ?_, ?_, ?_, ?_, ?_, ?_, ?_, ?_, ?_, ?_⟩ <;> intro h <;>
    simp [w1_bq2022_battery_id, hh, h, CRYPT_COMMON_HEADER, BQ2022_ID_SAMSUNG_XWD,
      BQ2022_ID_GUANGYU, BQ2022_ID_SONY_XWD, BQ2022_ID_SAMSUNG_XWD_CD, BQ2022_ID_LG_DESA,
      BQ2022_ID_SONY_FMT, BQ2022_ID_RUISHENG, BQ2022_ID_DELSA, BQ2022_ID_AAC,
      BQ2022_ID_COSLIGHT, BQ2022_ID_SAMSUNG_FMT]

theorem battery_id_known_witness :
    GEN_PSEUDO_HEADER armLE (cached (idBlock 0x10139461 0 0)).batt_crypt_info = 0xE54C21ED
    ∧ GEN_PSEUDO_INFO armLE (cached (idBlock 0x10139461 0 0)).batt_crypt_info = 0x10139461
    ∧ (w1_bq2022_battery_id armLE (cached (idBlock 0x10139461 0 0))).1 = 0x40000 :=
  ⟨by decide, by decide,
    (battery_id_known armLE (cached (idBlock 0x10139461 0 0)) (by decide)).2.2.1 (by decide)⟩

/-- C2. On every cached block whose header word is not 0xE54C21ED the decoder
returns 0, whatever the other bytes are; the all-zero block is such a block. -/
theorem battery_id_bad_header {β : Type} (abi : Abi) (s : Sys β)
    (hh : GEN_PSEUDO_HEADER abi s.batt_crypt_info ≠ 0xE54C21ED) :
    (w1_bq2022_battery_id abi s).1 = 0
    ∧ GEN_PSEUDO_HEADER abi zeroBlock ≠ 0xE54C21ED
    ∧ (w1_bq2022_battery_id abi { s with batt_crypt_info := zeroBlock }).1 = 0 := by
  have hz : GEN_PSEUDO_HEADER abi zeroBlock ≠ 0xE54C21ED := by
    simp [GEN_PSEUDO_HEADER, loadWord, zeroBlock]
  refine ⟨?_, hz, ?_⟩
  · simp [w1_bq2022_battery_id, hh, CRYPT_COMMON_HEADER]
  · simp [w1_bq2022_battery_id, hz, CRYPT_COMMON_HEADER]

theorem battery_id_bad_header_witness :
    GEN_PSEUDO_HEADER armLE (cached (Function.update (idBlock 0x10139461 0 0) 0 0xEC)).batt_crypt_info
      ≠ 0xE54C21ED
    ∧ GEN_PSEUDO_INFO armLE (cached (Function.update (idBlock 0x10139461 0 0) 0 0xEC)).batt_crypt_info
      = 0x10139461
    ∧ (w1_bq2022_battery_id armLE (cached (Function.update (idBlock 0x10139461 0 0) 0 0xEC))).1 = 0 :=
  ⟨by decide, by decide,
    (battery_id_bad_header armLE (cached (Function.update (idBlock 0x10139461 0 0) 0 0xEC))
      (by decide)).1⟩

/-- C3. On every cached block whose header word is 0xE54C21ED and whose
pseudo-identifier is none of the 11 identifier constants, the decoder returns
0. -/
theorem battery_id_unknown {β : Type} (abi : Abi) (s : Sys β)
    (hh : GEN_PSEUDO_HEADER abi s.batt_crypt_info = 0xE54C21ED)
    (hn : GEN_PSEUDO_INFO abi s.batt_crypt_info ∉
      [0x10139461, 0x10139462, 0x10139463, 0x10139464, 0x10139465, 0x10139466, 0x10139467,
        0x8412E562, 0xAACAACAA, 0xDF0C7A62, 0xF40E9762]) :
    (w1_bq2022_battery_id abi s).1 = 0 := by
  simp only [List.mem_cons, List.mem_singleton, List.not_mem_nil, or_false, not_or] at hn
  obtain ⟨h1, h2, h3, h4, h5, h6, h7, h8, h9, h10, h11⟩ := hn
  simp [w1_bq2022_battery_id, hh, CRYPT_COMMON_HEADER, BQ2022_ID_SAMSUNG_XWD,
    BQ2022_ID_GUANGYU, BQ2022_ID_SONY_XWD, BQ2022_ID_SAMSUNG_XWD_CD, BQ2022_ID_LG_DESA,
    BQ2022_ID_SONY_FMT, BQ2022_ID_RUISHENG, BQ2022_ID_DELSA, BQ2022_ID_AAC,
    BQ2022_ID_COSLIGHT, BQ2022_ID_SAMSUNG_FMT, h1, h2, h3, h4, h5, h6, h7, h8, h9, h10, h11]

theorem battery_id_unknown_witness :
    GEN_PSEUDO_HEADER armLE (cached (idBlock 0x10139468 0 0)).batt_crypt_info = 0xE54C21ED
    ∧ GEN_PSEUDO_INFO armLE (cached (idBlock 0x10139468 0 0)).batt_crypt_info = 0x10139468
    ∧ (w1_bq2022_battery_id armLE (cached (idBlock 0x10139468 0 0))).1 = 0 :=
  ⟨by decide, by decide,
    battery_id_unknown armLE (cached (idBlock 0x10139468 0 0)) (by decide) (by decide)⟩

/-- Where plain `char` is signed, a byte 8 of 0x80 or more sign-extends and sets
all upper 24 bits of the pseudo-identifier. -/
theorem pseudo_info_signed_char_example :
    GEN_PSEUDO_INFO { bigEndian := false, charSigned := true } (idBlock 0x12345680 0x78 0)
      = 0xFFFFFF80 := by
  decide

/-- Where plain `char` is signed, no block has the pseudo-identifier
`BQ2022_ID_AAC`, whose low byte is 0xAA: that `case` label can only be reached
where plain `char` is unsigned. -/
theorem aac_needs_unsigned_char (abi : Abi) (ptr : Block) (hs : abi.charSigned = true) :
    GEN_PSEUDO_INFO abi ptr ≠ BQ2022_ID_AAC := by
  have hb : (ptr 8).val < 256 := (ptr 8).isLt
  by_cases h128 : 128 ≤ (ptr 8).val
  · intro h
    have hbit : (GEN_PSEUDO_INFO abi ptr).testBit 8 = true := by
      have : ((ptr 8).val + 0xFFFFFF00).testBit 8 = true := by
        rw [Nat.testBit_to_div_mod]
        have : ((ptr 8).val + 0xFFFFFF00) / 256 % 2 = 1 := by omega
        simp [this]
      simp [GEN_PSEUDO_INFO, charToUInt, hs, h128, Nat.testBit_or, this]
    rw [h] at hbit
    revert hbit
    decide
  · intro h
    have hb8 : (ptr 8).val < 2 ^ 8 := hb
    have e : GEN_PSEUDO_INFO abi ptr
        = 256 * (loadWord abi (ptr 60) (ptr 61) (ptr 62) (ptr 63) / 256) + (ptr 8).val := by
      rw [Nat.mul_add_lt_is_or hb8]
      simp [GEN_PSEUDO_INFO, charToUInt, hs, h128, and_high_mask _ (loadWord_lt _ _ _ _ _)]
    rw [e] at h
    simp only [BQ2022_ID_AAC] at h
    omega

/-! ## Lemmas on the read protocol -/

/-- Resets of a concatenated trace. -/
theorem countResets_append (t u : List BusEvent) :
    countResets (t ++ u) = countResets t + countResets u := by
  simp [countResets]

/-- Block reads of a concatenated trace. -/
theorem hasBlockRead_append (t u : List BusEvent) :
    hasBlockRead (t ++ u) = (hasBlockRead t || hasBlockRead u) := by
  simp [hasBlockRead]

/-- A pass does not touch `bq2022_slave`. -/
theorem attempt_slave {β : Type} (B : W1Bus β) (m : Nat) (s : Sys β) :
    (w1_bq2022_attempt B m s).2.bq2022_slave = s.bq2022_slave := by
  unfold w1_bq2022_attempt
  simp only []
  split_ifs <;> simp [busReset, busWriteBlock, busRead8, busReadBlockIntoCache]

/-- A pass resets the bus exactly once. -/
theorem attempt_countResets {β : Type} (B : W1Bus β) (m : Nat) (s : Sys β) :
    countResets (w1_bq2022_attempt B m s).2.trace = countResets s.trace + 1 := by
  unfold w1_bq2022_attempt
  simp only []
  split_ifs <;>
    simp [busReset, busWriteBlock, busRead8, busReadBlockIntoCache, countResets_append, countResets]

/-- A pass that ends before `w1_read_block` leaves the buffer as it was. -/
theorem attempt_beforeBlockRead {β : Type} (B : W1Bus β) (m : Nat) (s : Sys β)
    (h : (w1_bq2022_attempt B m s).1.beforeBlockRead = true) :
    (w1_bq2022_attempt B m s).2.batt_crypt_info = s.batt_crypt_info
    ∧ ∃ evs, (w1_bq2022_attempt B m s).2.trace = s.trace ++ evs ∧ hasBlockRead evs = false := by
  unfold w1_bq2022_attempt at h ⊢
  simp only [] at h ⊢
  split_ifs at h ⊢ <;>
    simp_all [busReset, busWriteBlock, busRead8, busReadBlockIntoCache, Attempt.beforeBlockRead,
      hasBlockRead]
/-- A pass that succeeds leaves the delivered bytes in the buffer, and their CRC
is the trailing byte. -/
theorem attempt_success {β : Type} (B : W1Bus β) (m : Nat) (s : Sys β) (d : Block) (c : Byte)
    (h : (w1_bq2022_attempt B m s).1 = Attempt.success d c) :
    (w1_bq2022_attempt B m s).2.batt_crypt_info = d
    ∧ B.w1_calc_crc8 (blockBytes d) = c
    ∧ ∃ evs, (w1_bq2022_attempt B m s).2.trace
        = s.trace ++ evs ++ [BusEvent.readBlock m 128 (blockBytes d), BusEvent.read8 m c] := by
  unfold w1_bq2022_attempt at h ⊢
  simp only [] at h ⊢
  split_ifs at h ⊢ with h1 h2 h3
  obtain ⟨rfl, rfl⟩ := h
  refine ⟨?_, ?_, ?_⟩
  · simp [busRead8]
  · exact not_not.mp h3
  · refine ⟨[BusEvent.reset m (B.w1_reset_bus m s.bus).1,
      BusEvent.writeBlock m [HDQ_CMD_SKIP_ROM, HDQ_CMD_READ_FIELD, 0x0, 0x0],
      BusEvent.read8 m (B.w1_read_8 m (B.w1_write_block m
        [HDQ_CMD_SKIP_ROM, HDQ_CMD_READ_FIELD, 0x0, 0x0] (B.w1_reset_bus m s.bus).2)).1], ?_⟩
    simp [busReset, busWriteBlock, busRead8, busReadBlockIntoCache]

/-- A pass that fails the data CRC leaves the delivered bytes in the buffer all
the same. -/
theorem attempt_dataCrcErr {β : Type} (B : W1Bus β) (m : Nat) (s : Sys β) (d : Block) (c : Byte)
    (h : (w1_bq2022_attempt B m s).1 = Attempt.dataCrcErr d c) :
    (w1_bq2022_attempt B m s).2.batt_crypt_info = d
    ∧ B.w1_calc_crc8 (blockBytes d) ≠ c
    ∧ ∃ evs, (w1_bq2022_attempt B m s).2.trace
        = s.trace ++ evs ++ [BusEvent.readBlock m 128 (blockBytes d), BusEvent.read8 m c] := by
  unfold w1_bq2022_attempt at h ⊢
  simp only [] at h ⊢
  split_ifs at h ⊢ with h1 h2 h3
  obtain ⟨rfl, rfl⟩ := h
  refine ⟨?_, ?_, ?_⟩
  · simp [busRead8]
  · exact h3
  · refine ⟨[BusEvent.reset m (B.w1_reset_bus m s.bus).1,
      BusEvent.writeBlock m [HDQ_CMD_SKIP_ROM, HDQ_CMD_READ_FIELD, 0x0, 0x0],
      BusEvent.read8 m (B.w1_read_8 m (B.w1_write_block m
        [HDQ_CMD_SKIP_ROM, HDQ_CMD_READ_FIELD, 0x0, 0x0] (B.w1_reset_bus m s.bus).2)).1], ?_⟩
    simp [busReset, busWriteBlock, busRead8, busReadBlockIntoCache]

/-- Outcomes after the first pass are outcomes from the state it leaves. -/
theorem attemptOutcome_succ {β : Type} (B : W1Bus β) (m : Nat) (s : Sys β) (j : Nat) :
    attemptOutcome B m s (j + 1) = attemptOutcome B m (w1_bq2022_attempt B m s).2 j := rfl

/-- One more pass, taken at the end. -/
theorem afterAttempts_succ_right {β : Type} (B : W1Bus β) (m : Nat) (n : Nat) (s : Sys β) :
    afterAttempts B m (n + 1) s = (w1_bq2022_attempt B m (afterAttempts B m n s)).2 := by
  induction n generalizing s with
  | zero => rfl
  | succ n ih => exact ih (w1_bq2022_attempt B m s).2

/-- A failed pass sends the loop back to the label with one retry less. -/
theorem read_retry_of_failed {β : Type} (B : W1Bus β) (m : Nat) (n : Nat) (s : Sys β)
    (h : (w1_bq2022_attempt B m s).1.failed = true) :
    w1_bq2022_read_retry B m (n + 1) s
      = w1_bq2022_read_retry B m n (w1_bq2022_attempt B m s).2 := by
  rw [w1_bq2022_read_retry]
  rcases hA : w1_bq2022_attempt B m s with ⟨a, s'⟩
  rw [hA] at h
  cases a with
  | success d c => simp [Attempt.failed] at h
  | resetFailed => rfl
  | comCrcErr => rfl
  | dataCrcErr d c => rfl

/-- A pass that succeeds ends the loop with return value 0. -/
theorem read_retry_of_success {β : Type} (B : W1Bus β) (m : Nat) (n : Nat) (s : Sys β)
    (h : (w1_bq2022_attempt B m s).1.failed = false) :
    w1_bq2022_read_retry B m (n + 1) s = (0, (w1_bq2022_attempt B m s).2) := by
  rw [w1_bq2022_read_retry]
  rcases hA : w1_bq2022_attempt B m s with ⟨a, s'⟩
  rw [hA] at h
  cases a with
  | success d c => rfl
  | resetFailed => simp [Attempt.failed] at h
  | comCrcErr => simp [Attempt.failed] at h
  | dataCrcErr d c => simp [Attempt.failed] at h

/-- If the first `n` passes all fail, the loop entered with `retries = n` gives
up after exactly these `n` passes. -/
theorem read_retry_all_failed {β : Type} (B : W1Bus β) (m : Nat) (n : Nat) (s : Sys β)
    (h : ∀ j, j < n → (attemptOutcome B m s j).failed = true) :
    w1_bq2022_read_retry B m n s = (-1, afterAttempts B m n s) := by
  induction n generalizing s with
  | zero => rfl
  | succ n ih =>
    rw [read_retry_of_failed B m n s (h 0 (Nat.succ_pos n))]
    exact ih (w1_bq2022_attempt B m s).2 (fun j hj => h (j + 1) (Nat.succ_lt_succ hj))

/-- If the first `k` passes fail and the next one succeeds, the loop entered
with `retries > k` returns 0 right after that pass. -/
theorem read_retry_success_at {β : Type} (B : W1Bus β) (m : Nat) (n k : Nat) (s : Sys β)
    (hk : k < n)
    (hfail : ∀ j, j < k → (attemptOutcome B m s j).failed = true)
    (hok : (attemptOutcome B m s k).failed = false) :
    w1_bq2022_read_retry B m n s = (0, afterAttempts B m (k + 1) s) := by
  induction n generalizing s k with
  | zero => omega
  | succ n ih =>
    cases k with
    | zero => exact read_retry_of_success B m n s hok
    | succ k =>
      rw [read_retry_of_failed B m n s (hfail 0 (Nat.succ_pos k))]
      exact ih k (w1_bq2022_attempt B m s).2 (by omega)
        (fun j hj => hfail (j + 1) (Nat.succ_lt_succ hj)) hok

/-- The buffer contents after a concatenated trace. -/
theorem cacheAfter_append (init : List Byte) (t u : List BusEvent) :
    cacheAfter init (t ++ u) = cacheAfter (cacheAfter init t) u := by
  simp [cacheAfter]

/-- A trace without `w1_read_block` leaves the buffer contents alone. -/
theorem cacheAfter_of_no_block_read (init : List Byte) (t : List BusEvent)
    (h : hasBlockRead t = false) : cacheAfter init t = init := by
  induction t generalizing init with
  | nil => rfl
  | cons e t ih =>
    cases e <;> simp_all [cacheAfter, hasBlockRead]

/-- A block is determined by its bytes. -/
theorem blockBytes_injective (a b : Block) (h : blockBytes a = blockBytes b) : a = b := by
  funext i
  have h2 := (List.map_inj_left.mp h) i.val (List.mem_range.mpr i.isLt)
  simpa [Nat.mod_eq_of_lt i.isLt] using h2

/-- A pass extends the trace, and the buffer follows the block reads in it. -/
theorem attempt_frame {β : Type} (B : W1Bus β) (m : Nat) (s : Sys β) :
    ∃ evs, (w1_bq2022_attempt B m s).2.trace = s.trace ++ evs
      ∧ blockBytes (w1_bq2022_attempt B m s).2.batt_crypt_info
          = cacheAfter (blockBytes s.batt_crypt_info) evs := by
  unfold w1_bq2022_attempt
  simp only []
  split_ifs <;>
    simp [busReset, busWriteBlock, busRead8, busReadBlockIntoCache, cacheAfter]

/-- What `n` passes do to slave, reset count, trace and buffer. -/
theorem afterAttempts_frame {β : Type} (B : W1Bus β) (m : Nat) (n : Nat) (s : Sys β) :
    (afterAttempts B m n s).bq2022_slave = s.bq2022_slave
    ∧ countResets (afterAttempts B m n s).trace = countResets s.trace + n
    ∧ ∃ evs, (afterAttempts B m n s).trace = s.trace ++ evs
      ∧ blockBytes (afterAttempts B m n s).batt_crypt_info
          = cacheAfter (blockBytes s.batt_crypt_info) evs := by
  induction n generalizing s with
  | zero => exact ⟨rfl, rfl, [], by simp [afterAttempts], by simp [afterAttempts, cacheAfter]⟩
  | succ n ih =>
    obtain ⟨h1, h2, evs2, h3, h4⟩ := ih (w1_bq2022_attempt B m s).2
    obtain ⟨evs1, h5, h6⟩ := attempt_frame B m s
    refine ⟨?_, ?_, evs1 ++ evs2, ?_, ?_⟩
    · rw [afterAttempts, h1, attempt_slave]
    · rw [afterAttempts, h2, attempt_countResets]; omega
    · rw [afterAttempts, h3, h5, List.append_assoc]
    · rw [afterAttempts, h4, h6, cacheAfter_append]

/-- The loop entered with `retries = n` makes `a` passes, `a ≤ n`: either all
`n` and they all fail (return -1), or the first `a - 1` fail and the last one
succeeds (return 0). -/
theorem read_retry_shape {β : Type} (B : W1Bus β) (m : Nat) (n : Nat) (s : Sys β) :
    ∃ a, a ≤ n ∧ (w1_bq2022_read_retry B m n s).2 = afterAttempts B m a s
      ∧ (((w1_bq2022_read_retry B m n s).1 = -1 ∧ a = n
            ∧ ∀ j, j < n → (attemptOutcome B m s j).failed = true)
         ∨ ((w1_bq2022_read_retry B m n s).1 = 0 ∧ 1 ≤ a
            ∧ (∀ j, j < a - 1 → (attemptOutcome B m s j).failed = true)
            ∧ (attemptOutcome B m s (a - 1)).failed = false)) := by
  induction n generalizing s with
  | zero => exact ⟨0, le_refl 0, rfl, Or.inl ⟨rfl, rfl, fun j hj => absurd hj (Nat.not_lt_zero j)⟩⟩
  | succ n ih =>
    cases hf : (w1_bq2022_attempt B m s).1.failed with
    | false =>
      refine ⟨1, by omega, ?_, Or.inr ⟨?_, le_refl 1, fun j hj => absurd hj (Nat.not_lt_zero j), hf⟩⟩
      · rw [read_retry_of_success B m n s hf]; rfl
      · rw [read_retry_of_success B m n s hf]
    | true =>
      obtain ⟨a, ha, hst, hcase⟩ := ih (w1_bq2022_attempt B m s).2
      rw [read_retry_of_failed B m n s hf]
      refine ⟨a + 1, by omega, by rw [hst]; rfl, ?_⟩
      rcases hcase with ⟨hr, han, hall⟩ | ⟨hr, ha1, hall, hlast⟩
      · refine Or.inl ⟨hr, by omega, ?_⟩
        intro j hj
        cases j with
        | zero => exact hf
        | succ j => exact hall j (by omega)
      · refine Or.inr ⟨hr, by omega, ?_, ?_⟩
        · intro j hj
          cases j with
          | zero => exact hf
          | succ j => exact hall j (by omega)
        · obtain ⟨a', rfl⟩ : ∃ a', a = a' + 1 := ⟨a - 1, by omega⟩
          exact hlast
/-- Passes compose. -/
theorem afterAttempts_add {β : Type} (B : W1Bus β) (m : Nat) (a b : Nat) (s : Sys β) :
    afterAttempts B m (a + b) s = afterAttempts B m b (afterAttempts B m a s) := by
  induction a generalizing s with
  | zero => simp [afterAttempts]
  | succ a ih =>
    rw [Nat.succ_add]
    exact ih (w1_bq2022_attempt B m s).2

/-- Outcomes after `a` passes are the outcomes numbered from `a`. -/
theorem attemptOutcome_add {β : Type} (B : W1Bus β) (m : Nat) (a i : Nat) (s : Sys β) :
    attemptOutcome B m (afterAttempts B m a s) i = attemptOutcome B m s (a + i) := by
  unfold attemptOutcome
  rw [afterAttempts_add]

/-- Passes that all end before the block read leave the buffer as it was. -/
theorem afterAttempts_beforeBlockRead {β : Type} (B : W1Bus β) (m : Nat) (n : Nat) (s : Sys β)
    (h : ∀ j, j < n → (attemptOutcome B m s j).beforeBlockRead = true) :
    (afterAttempts B m n s).batt_crypt_info = s.batt_crypt_info := by
  induction n generalizing s with
  | zero => rfl
  | succ n ih =>
    rw [afterAttempts, ih _ (fun j hj => h (j + 1) (Nat.succ_lt_succ hj))]
    exact (attempt_beforeBlockRead B m s (h 0 (Nat.succ_pos n))).1

/-- The buffer after `n` passes holds what pass `j` delivered, when that pass
got to the block read and no later pass did. -/
theorem afterAttempts_last_block {β : Type} (B : W1Bus β) (m : Nat) (n j : Nat) (s : Sys β)
    (d : Block) (hj : j < n)
    (hd : (w1_bq2022_attempt B m (afterAttempts B m j s)).2.batt_crypt_info = d)
    (hlater : ∀ i, j < i → i < n → (attemptOutcome B m s i).beforeBlockRead = true) :
    (afterAttempts B m n s).batt_crypt_info = d := by
  have e : n = (j + 1) + (n - (j + 1)) := by omega
  rw [e, afterAttempts_add, afterAttempts_beforeBlockRead, afterAttempts_succ_right]
  · exact hd
  · intro i hi
    rw [attemptOutcome_add]
    exact hlater _ (by omega) (by omega)

/-- A read keeps the slave, extends the trace, and the buffer follows the block
reads in it. -/
theorem read_frame {β : Type} (B : W1Bus β) (s : Sys β) :
    (w1_bq2022_read B s).2.bq2022_slave = s.bq2022_slave
    ∧ ∃ evs, (w1_bq2022_read B s).2.trace = s.trace ++ evs
      ∧ blockBytes (w1_bq2022_read B s).2.batt_crypt_info
          = cacheAfter (blockBytes s.batt_crypt_info) evs := by
  unfold w1_bq2022_read
  cases hsl : s.bq2022_slave with
  | none => exact ⟨hsl, [], by simp, by simp [cacheAfter]⟩
  | some sl =>
    obtain ⟨a, -, hst, -⟩ := read_retry_shape B sl.master 5 s
    obtain ⟨h1, -, h3⟩ := afterAttempts_frame B sl.master a s
    simp only [hst]
    exact ⟨h1.trans hsl, h3⟩

/-- A call extends the trace, and the buffer follows the block reads in it. -/
theorem step_frame {β : Type} (B : W1Bus β) (s : Sys β) (c : Call) :
    ∃ evs, (step B s c).trace = s.trace ++ evs
      ∧ blockBytes (step B s c).batt_crypt_info
          = cacheAfter (blockBytes s.batt_crypt_info) evs := by
  cases c with
  | attach sl => exact (read_frame B { s with bq2022_slave := sl }).2
  | detach sl => exact ⟨[], by simp [step, w1_bq2022_remove_slave],
      by simp [step, w1_bq2022_remove_slave, cacheAfter]⟩

/-- A sequence of calls extends the trace, and the buffer follows the block
reads in it. -/
theorem run_frame {β : Type} (B : W1Bus β) (calls : List Call) (s : Sys β) :
    ∃ evs, (run B s calls).trace = s.trace ++ evs
      ∧ blockBytes (run B s calls).batt_crypt_info
          = cacheAfter (blockBytes s.batt_crypt_info) evs := by
  induction calls generalizing s with
  | nil => exact ⟨[], by simp [run], by simp [run, cacheAfter]⟩
  | cons c calls ih =>
    obtain ⟨evs1, h1, h2⟩ := step_frame B s c
    obtain ⟨evs2, h3, h4⟩ := ih (step B s c)
    refine ⟨evs1 ++ evs2, ?_, ?_⟩
    · rw [run, List.foldl_cons, ← run, h3, h1, List.append_assoc]
    · rw [run, List.foldl_cons, ← run, h4, h2, cacheAfter_append]

/-- The last call of a sequence is applied last. -/
theorem run_append {β : Type} (B : W1Bus β) (s : Sys β) (calls : List Call) (c : Call) :
    run B s (calls ++ [c]) = step B (run B s calls) c := by
  simp [run]

/-! ## The read protocol and the life cycle: claims C5 to C10 -/

/-- C5, as the code has it. When a slave is tracked and all 5 passes fail, the
read returns -1. The buffer is as before the call if every pass failed at the
reset or at the command CRC; if some pass failed at the data CRC, the buffer
holds the 128 bytes delivered by the last such pass, whose CRC is not the
trailing byte read. -/
theorem read_all_failed {β : Type} (B : W1Bus β) (s : Sys β) (sl : W1Slave)
    (hs : s.bq2022_slave = some sl)
    (hfail : ∀ j, j < 5 → (attemptOutcome B sl.master s j).failed = true) :
    (w1_bq2022_read B s).1 = -1
    ∧ ((∀ j, j < 5 → (attemptOutcome B sl.master s j).beforeBlockRead = true) →
        (w1_bq2022_read B s).2.batt_crypt_info = s.batt_crypt_info)
    ∧ (∀ j d c, j < 5 → attemptOutcome B sl.master s j = Attempt.dataCrcErr d c →
        (∀ i, j < i → i < 5 → (attemptOutcome B sl.master s i).beforeBlockRead = true) →
        (w1_bq2022_read B s).2.batt_crypt_info = d ∧ B.w1_calc_crc8 (blockBytes d) ≠ c) := by
  have hr : w1_bq2022_read B s = (-1, afterAttempts B sl.master 5 s) := by
    unfold w1_bq2022_read
    rw [hs]
    exact read_retry_all_failed B sl.master 5 s hfail
  rw [hr]
  refine ⟨rfl, ?_, ?_⟩
  · intro hb
    exact afterAttempts_beforeBlockRead B sl.master 5 s hb
  · intro j d c hj hd hlater
    have hA := attempt_dataCrcErr B sl.master (afterAttempts B sl.master j s) d c hd
    exact ⟨afterAttempts_last_block B sl.master 5 j s d hj hA.1 hlater, hA.2.1⟩

theorem read_all_failed_witness :
    (w1_bq2022_read staleOverwriteBus (tracked (idBlock 0x10139465 0 0) ⟨0, false⟩)).1 = -1
    ∧ (w1_bq2022_read mixedFailureBus (tracked (idBlock 0x10139465 0 0) ⟨0, false⟩)).1 = -1 :=
  ⟨(read_all_failed staleOverwriteBus (tracked (idBlock 0x10139465 0 0) ⟨0, false⟩)
      { master := 0 } rfl (by decide!)).1,
   (read_all_failed mixedFailureBus (tracked (idBlock 0x10139465 0 0) ⟨0, false⟩)
      { master := 0 } rfl (by decide!)).1⟩

/-- C5 fails as stated. With a block decoding to 0x30000 cached, a read whose
first four passes fail at the reset and whose fifth fails at the data CRC
returns -1, and the buffer then holds the unverified block (it decodes to
0x40000). -/
theorem read_all_failed_overwrites_cache :
    (tracked (idBlock 0x10139465 0 0) (⟨0, false⟩ : ScriptState)).bq2022_slave
      = some { master := 0 }
    ∧ (∀ j, j < 5 → (attemptOutcome staleOverwriteBus 0
          (tracked (idBlock 0x10139465 0 0) ⟨0, false⟩) j).failed = true)
    ∧ (w1_bq2022_read staleOverwriteBus (tracked (idBlock 0x10139465 0 0) ⟨0, false⟩)).1 = -1
    ∧ (w1_bq2022_read staleOverwriteBus
          (tracked (idBlock 0x10139465 0 0) ⟨0, false⟩)).2.batt_crypt_info
        ≠ (tracked (idBlock 0x10139465 0 0) (⟨0, false⟩ : ScriptState)).batt_crypt_info
    ∧ (w1_bq2022_battery_id armLE
          (tracked (idBlock 0x10139465 0 0) (⟨0, false⟩ : ScriptState))).1 = 0x30000
    ∧ (w1_bq2022_battery_id armLE (w1_bq2022_read staleOverwriteBus
          (tracked (idBlock 0x10139465 0 0) ⟨0, false⟩)).2).1 = 0x40000 := by
  refine ⟨rfl, by decide!, by decide!, ?_, by decide!, by decide!⟩
  intro h
  have h8 := congrFun h 8
  revert h8
  decide!

/-- A pass that does not fail is a success carrying the buffer it leaves and the
CRC of that buffer. -/
theorem attempt_of_not_failed {β : Type} (B : W1Bus β) (m : Nat) (s : Sys β)
    (h : (w1_bq2022_attempt B m s).1.failed = false) :
    (w1_bq2022_attempt B m s).1
      = Attempt.success (w1_bq2022_attempt B m s).2.batt_crypt_info
          (B.w1_calc_crc8 (blockBytes (w1_bq2022_attempt B m s).2.batt_crypt_info)) := by
  cases hA : (w1_bq2022_attempt B m s).1 with
  | success d c =>
    obtain ⟨hd, hc, -⟩ := attempt_success B m s d c hA
    rw [hd, hc]
  | resetFailed => rw [hA] at h; simp [Attempt.failed] at h
  | comCrcErr => rw [hA] at h; simp [Attempt.failed] at h
  | dataCrcErr d c => rw [hA] at h; simp [Attempt.failed] at h

/-- C6. For every k with 1 ≤ k ≤ 5: when a slave is tracked, the first k-1
passes fail and pass k passes reset, command CRC and data CRC, the read returns
0 after exactly k resets, and the buffer holds exactly the 128 bytes the
transport delivered in pass k, whose CRC-8 is the trailing byte read in that
pass (the last two transport calls of the read). -/
theorem read_success_at {β : Type} (B : W1Bus β) (s : Sys β) (sl : W1Slave) (k : Nat)
    (d : Block) (c : Byte)
    (hs : s.bq2022_slave = some sl) (hk1 : 1 ≤ k) (hk5 : k ≤ 5)
    (hfail : ∀ j, j < k - 1 → (attemptOutcome B sl.master s j).failed = true)
    (hok : attemptOutcome B sl.master s (k - 1) = Attempt.success d c) :
    (w1_bq2022_read B s).1 = 0
    ∧ (w1_bq2022_read B s).2.batt_crypt_info = d
    ∧ B.w1_calc_crc8 (blockBytes d) = c
    ∧ countResets (w1_bq2022_read B s).2.trace = countResets s.trace + k
    ∧ ∃ evs, (w1_bq2022_read B s).2.trace = s.trace ++ evs
        ++ [BusEvent.readBlock sl.master 128 (blockBytes d), BusEvent.read8 sl.master c] := by
  obtain ⟨k', rfl⟩ : ∃ k', k = k' + 1 := ⟨k - 1, by omega⟩
  simp only [Nat.add_sub_cancel] at hfail hok
  have hokf : (attemptOutcome B sl.master s k').failed = false := by rw [hok]; rfl
  have hr : w1_bq2022_read B s = (0, afterAttempts B sl.master (k' + 1) s) := by
    unfold w1_bq2022_read
    rw [hs]
    exact read_retry_success_at B sl.master 5 k' s (by omega) hfail hokf
  obtain ⟨hd, hc, evs2, ht⟩ := attempt_success B sl.master (afterAttempts B sl.master k' s) d c hok
  obtain ⟨-, hcount, evs1, ht1, -⟩ := afterAttempts_frame B sl.master k' s
  rw [hr]
  refine ⟨rfl, ?_, hc, ?_, evs1 ++ evs2, ?_⟩
  · rw [afterAttempts_succ_right]; exact hd
  · exact (afterAttempts_frame B sl.master (k' + 1) s).2.1
  · show (afterAttempts B sl.master (k' + 1) s).trace = _
    rw [afterAttempts_succ_right, ht, ht1]
    simp

theorem read_success_at_witness :
    (w1_bq2022_read thirdTimeBus (tracked zeroBlock ⟨0, false⟩)).1 = 0
    ∧ (w1_bq2022_read thirdTimeBus (tracked zeroBlock ⟨0, false⟩)).2.batt_crypt_info
        = (w1_bq2022_attempt thirdTimeBus 0
            (afterAttempts thirdTimeBus 0 2 (tracked zeroBlock ⟨0, false⟩))).2.batt_crypt_info
    ∧ (w1_bq2022_battery_id armLE
        (w1_bq2022_read thirdTimeBus (tracked zeroBlock ⟨0, false⟩)).2).1 = 0x40000 :=
  have h := read_success_at thirdTimeBus (tracked zeroBlock ⟨0, false⟩) { master := 0 } 3 _ _
    rfl (by decide) (by decide) (by decide!)
    (attempt_of_not_failed thirdTimeBus 0
      (afterAttempts thirdTimeBus 0 2 (tracked zeroBlock ⟨0, false⟩)) (by decide!))
  ⟨h.1, h.2.1, by decide!⟩

/-- C7. With a tracked slave the read always returns, 0 or -1, after at most 5
passes of the retry loop, each of which resets the bus exactly once whatever
way it ends: at most 5 resets. It returns -1 exactly when all 5 passes fail,
by reset failure or CRC mismatch alike, and has then made exactly 5 resets. -/
theorem read_at_most_five_attempts {β : Type} (B : W1Bus β) (s : Sys β) (sl : W1Slave)
    (hs : s.bq2022_slave = some sl) :
    ((w1_bq2022_read B s).1 = 0 ∨ (w1_bq2022_read B s).1 = -1)
    ∧ (∃ a, a ≤ 5 ∧ (w1_bq2022_read B s).2 = afterAttempts B sl.master a s
        ∧ countResets (w1_bq2022_read B s).2.trace = countResets s.trace + a)
    ∧ countResets (w1_bq2022_read B s).2.trace ≤ countResets s.trace + 5
    ∧ ((w1_bq2022_read B s).1 = -1 ↔
        ∀ j, j < 5 → (attemptOutcome B sl.master s j).failed = true)
    ∧ ((w1_bq2022_read B s).1 = -1 →
        countResets (w1_bq2022_read B s).2.trace = countResets s.trace + 5) := by
  have hr : w1_bq2022_read B s = w1_bq2022_read_retry B sl.master 5 s := by
    unfold w1_bq2022_read
    rw [hs]
  obtain ⟨a, ha, hst, hcase⟩ := read_retry_shape B sl.master 5 s
  have hcount := (afterAttempts_frame B sl.master a s).2.1
  rw [hr, hst]
  rcases hcase with ⟨hrc, han, hall⟩ | ⟨hrc, ha1, hall, hlast⟩
  · refine ⟨Or.inr hrc, ⟨a, ha, rfl, hcount⟩, by omega, ⟨fun _ => hall, fun _ => hrc⟩, ?_⟩
    intro _
    rw [hcount, han]
  · refine ⟨Or.inl hrc, ⟨a, ha, rfl, hcount⟩, by omega, ⟨?_, ?_⟩, ?_⟩
    · intro h
      rw [hrc] at h
      exact absurd h (by decide)
    · intro h
      have := h (a - 1) (by omega)
      rw [hlast] at this
      exact absurd this (by decide)
    · intro h
      rw [hrc] at h
      exact absurd h (by decide)

theorem read_at_most_five_attempts_witness :
    (w1_bq2022_read mixedFailureBus (tracked zeroBlock ⟨0, false⟩)).1 = -1
    ∧ countResets (w1_bq2022_read mixedFailureBus (tracked zeroBlock ⟨0, false⟩)).2.trace
        = countResets (tracked zeroBlock (⟨0, false⟩ : ScriptState)).trace + 5 :=
  have h := read_at_most_five_attempts mixedFailureBus (tracked zeroBlock ⟨0, false⟩)
    { master := 0 } rfl
  have hrc := h.2.2.2.1.mpr (by decide!)
  ⟨hrc, h.2.2.2.2 hrc⟩

/-- C10. Without a tracked slave the read returns -1 at once and leaves the
whole state as it was: no transport call is made (bus state and trace are
unchanged) and the buffer is untouched. -/
theorem read_without_slave {β : Type} (B : W1Bus β) (s : Sys β)
    (hs : s.bq2022_slave = none) :
    w1_bq2022_read B s = (-1, s) := by
  unfold w1_bq2022_read
  rw [hs]

theorem read_without_slave_witness :
    w1_bq2022_read thirdTimeBus (initial ⟨0, false⟩) = (-1, initial ⟨0, false⟩) :=
  read_without_slave thirdTimeBus (initial ⟨0, false⟩) rfl

/-- C9. From the initial state, under any transport: `w1_bq2022_has_slave` is 0
after no call at all and after any sequence ending in a detach (whatever its
argument, whatever precedes it), and 1 after any sequence ending in the attach
of a non-null device, whatever the attach returned. -/
theorem has_slave_after_run {β : Type} (B : W1Bus β) (bus : β) :
    (w1_bq2022_has_slave (run B (initial bus) [])).1 = 0
    ∧ (∀ (calls : List Call) (sl : Option W1Slave),
        (w1_bq2022_has_slave (run B (initial bus) (calls ++ [Call.detach sl]))).1 = 0)
    ∧ (∀ (calls : List Call) (sl : W1Slave),
        (w1_bq2022_has_slave (run B (initial bus) (calls ++ [Call.attach (some sl)]))).1 = 1) := by
  refine ⟨rfl, ?_, ?_⟩
  · intro calls sl
    rw [run_append]
    rfl
  · intro calls sl
    rw [run_append]
    have h := (read_frame B { run B (initial bus) calls with bq2022_slave := some sl }).1
    simp only [step, w1_bq2022_add_slave, w1_bq2022_has_slave, h]
    simp

/-- C8, as the code has it. In every state reached from the initial state by
attach and detach calls, under any transport, the buffer holds the bytes
delivered by the most recent `w1_read_block`, CRC-verified or not, and the
all-zero block if there was none. So as long as no pass of any read has got as
far as the 128-byte read, the buffer is all-zero and the decoder returns 0. -/
theorem battery_id_before_block_read {β : Type} (B : W1Bus β) (bus : β) (calls : List Call)
    (abi : Abi) :
    blockBytes (run B (initial bus) calls).batt_crypt_info
        = cacheAfter (blockBytes zeroBlock) (run B (initial bus) calls).trace
    ∧ (hasBlockRead (run B (initial bus) calls).trace = false →
        (run B (initial bus) calls).batt_crypt_info = zeroBlock
        ∧ (w1_bq2022_battery_id abi (run B (initial bus) calls)).1 = 0) := by
  obtain ⟨evs, ht, hc⟩ := run_frame B calls (initial bus)
  have ht' : (run B (initial bus) calls).trace = evs := by
    rw [ht]; simp [initial]
  have hc' : blockBytes (run B (initial bus) calls).batt_crypt_info
      = cacheAfter (blockBytes zeroBlock) evs := hc
  refine ⟨by rw [ht']; exact hc', ?_⟩
  intro hno
  rw [ht'] at hno
  have hz : (run B (initial bus) calls).batt_crypt_info = zeroBlock := by
    apply blockBytes_injective
    rw [hc', cacheAfter_of_no_block_read _ _ hno]
  refine ⟨hz, ?_⟩
  have hh : GEN_PSEUDO_HEADER abi zeroBlock ≠ CRYPT_COMMON_HEADER := by
    simp [GEN_PSEUDO_HEADER, loadWord, zeroBlock, CRYPT_COMMON_HEADER]
  simp [w1_bq2022_battery_id, hz, hh]

theorem battery_id_before_block_read_witness :
    hasBlockRead (run absentBus (initial ⟨0, false⟩)
        [Call.attach (some { master := 0 }), Call.detach none,
          Call.attach (some { master := 3 })]).trace = false
    ∧ (w1_bq2022_battery_id armLE (run absentBus (initial ⟨0, false⟩)
        [Call.attach (some { master := 0 }), Call.detach none,
          Call.attach (some { master := 3 })])).1 = 0 :=
  ⟨by decide!,
    ((battery_id_before_block_read absentBus ⟨0, false⟩
      [Call.attach (some { master := 0 }), Call.detach none,
        Call.attach (some { master := 3 })] armLE).2 (by decide!)).2⟩

/-- C8 fails as stated. From the initial state, one attach on a transport whose
every pass delivers a block with the magic header and identifier 0x10139461
but a wrong data CRC: the only read ever made returns -1, and the decoder then
returns 0x40000 from the block that failed CRC verification. -/
theorem unverified_block_is_decoded :
    (w1_bq2022_add_slave neverVerifiedBus (some { master := 0 }) (initial ⟨0, false⟩)).1 = -1
    ∧ (w1_bq2022_battery_id armLE (initial (⟨0, false⟩ : ScriptState))).1 = 0
    ∧ (w1_bq2022_battery_id armLE (run neverVerifiedBus (initial ⟨0, false⟩)
          [Call.attach (some { master := 0 })])).1 = 0x40000 := by
  refine ⟨by decide!, by decide!, by decide!⟩

/-- The value the decoder returns is a function of the header word and the
pseudo-identifier of the buffer. -/
theorem battery_id_of_macros {β γ : Type} (abi : Abi) (s1 : Sys β) (s2 : Sys γ)
    (hh : GEN_PSEUDO_HEADER abi s1.batt_crypt_info = GEN_PSEUDO_HEADER abi s2.batt_crypt_info)
    (hi : GEN_PSEUDO_INFO abi s1.batt_crypt_info = GEN_PSEUDO_INFO abi s2.batt_crypt_info) :
    (w1_bq2022_battery_id abi s1).1 = (w1_bq2022_battery_id abi s2).1 := by
  unfold w1_bq2022_battery_id
  simp only [hh, hi]
  split_ifs <;> rfl

/-! ## The decoder as a function of the state: claims C11, C12, C15, C16 -/

/-- C11. `w1_bq2022_battery_id` is pure: for every state it returns the state
it was given (buffer, tracked slave, transport state and trace unchanged), so a
second call right after the first returns the same value. -/
theorem battery_id_pure {β : Type} (abi : Abi) (s : Sys β) :
    (w1_bq2022_battery_id abi s).2 = s
    ∧ (w1_bq2022_battery_id abi s).2.batt_crypt_info = s.batt_crypt_info
    ∧ (w1_bq2022_battery_id abi s).2.bq2022_slave = s.bq2022_slave
    ∧ (w1_bq2022_battery_id abi (w1_bq2022_battery_id abi s).2).1
        = (w1_bq2022_battery_id abi s).1 := by
  have h : (w1_bq2022_battery_id abi s).2 = s := by
    unfold w1_bq2022_battery_id
    simp only []
    split_ifs <;> rfl
  refine ⟨h, ?_, ?_, ?_⟩ <;> rw [h]

/-- C12. For every cached block the decoder returns one of 0, 0x30000, 0x40000,
0x50000, 0x60000, 0x70000, 0x80000: a non-negative multiple of 0x10000, never
a negative error code. -/
theorem battery_id_range {β : Type} (abi : Abi) (s : Sys β) :
    (w1_bq2022_battery_id abi s).1 ∈
        ([0, 0x30000, 0x40000, 0x50000, 0x60000, 0x70000, 0x80000] : List Int)
    ∧ 0 ≤ (w1_bq2022_battery_id abi s).1
    ∧ (w1_bq2022_battery_id abi s).1 % 0x10000 = 0 := by
  unfold w1_bq2022_battery_id
  simp only []
  split_ifs <;> simp

/-- C15. Detach leaves the buffer as it was, so the decoder returns the same
value right after `w1_bq2022_remove_slave` as right before, while
`w1_bq2022_has_slave` is then 0: as on the example, where the decoder still
returns 0x40000 after the detach. -/
theorem battery_id_after_detach {β : Type} (abi : Abi) (s : Sys β) (sl : Option W1Slave) :
    (w1_bq2022_remove_slave sl s).batt_crypt_info = s.batt_crypt_info
    ∧ (w1_bq2022_battery_id abi (w1_bq2022_remove_slave sl s)).1
        = (w1_bq2022_battery_id abi s).1
    ∧ (w1_bq2022_has_slave (w1_bq2022_remove_slave sl s)).1 = 0
    ∧ (w1_bq2022_has_slave (tracked (idBlock 0x10139461 0 0) ())).1 = 1
    ∧ (w1_bq2022_has_slave (w1_bq2022_remove_slave (some { master := 0 })
          (tracked (idBlock 0x10139461 0 0) ()))).1 = 0
    ∧ (w1_bq2022_battery_id armLE (w1_bq2022_remove_slave (some { master := 0 })
          (tracked (idBlock 0x10139461 0 0) ()))).1 = 0x40000 := by
  refine ⟨rfl, ?_, rfl, by decide, by decide, by decide⟩
  exact battery_id_of_macros abi (w1_bq2022_remove_slave sl s) s rfl rfl

/-- The word at bytes 60..63 without its low 8 bits is a function of the other
three bytes. -/
theorem loadWord_high (abi : Abi) (p q : Block)
    (h : ∀ i, i ∈ ([60, 61, 62, 63] : List (Fin 128)) → i ≠ lowByteIndex abi → p i = q i) :
    loadWord abi (p 60) (p 61) (p 62) (p 63) / 256
      = loadWord abi (q 60) (q 61) (q 62) (q 63) / 256 := by
  have p60 := (p 60).isLt
  have p63 := (p 63).isLt
  have q60 := (q 60).isLt
  have q63 := (q 63).isLt
  have h61 : p 61 = q 61 := h 61 (by simp) (by unfold lowByteIndex; split <;> decide)
  have h62 : p 62 = q 62 := h 62 (by simp) (by unfold lowByteIndex; split <;> decide)
  cases hb : abi.bigEndian with
  | false =>
    have h63 : p 63 = q 63 := h 63 (by simp) (by simp [lowByteIndex, hb])
    simp only [loadWord, hb, h61, h62, h63, Bool.false_eq_true, if_false]
    omega
  | true =>
    have h60 : p 60 = q 60 := h 60 (by simp) (by simp [lowByteIndex, hb])
    simp only [loadWord, hb, h61, h62, h60, if_true]
    omega

/-- C16. The decoded value depends only on bytes 0..3, byte 8 and bytes 60..63
of the buffer: two blocks that agree on these 9 bytes decode alike. Of bytes
60..63, the one that holds the low 8 bits of the word (index `lowByteIndex`,
60 on a little-endian target) does not matter either: agreement on the other
8 bytes is enough. -/
theorem battery_id_depends_on {β γ : Type} (abi : Abi) (s1 : Sys β) (s2 : Sys γ) :
    ((∀ i, i ∈ ([0, 1, 2, 3, 8, 60, 61, 62, 63] : List (Fin 128)) →
        s1.batt_crypt_info i = s2.batt_crypt_info i) →
      (w1_bq2022_battery_id abi s1).1 = (w1_bq2022_battery_id abi s2).1)
    ∧ ((∀ i, i ∈ ([0, 1, 2, 3, 8, 60, 61, 62, 63] : List (Fin 128)) → i ≠ lowByteIndex abi →
        s1.batt_crypt_info i = s2.batt_crypt_info i) →
      (w1_bq2022_battery_id abi s1).1 = (w1_bq2022_battery_id abi s2).1)
    ∧ loadWord abi (s1.batt_crypt_info 60) (s1.batt_crypt_info 61) (s1.batt_crypt_info 62)
        (s1.batt_crypt_info 63) % 256 = (s1.batt_crypt_info (lowByteIndex abi)).val := by
  have key : (∀ i, i ∈ ([0, 1, 2, 3, 8, 60, 61, 62, 63] : List (Fin 128)) →
      i ≠ lowByteIndex abi → s1.batt_crypt_info i = s2.batt_crypt_info i) →
      (w1_bq2022_battery_id abi s1).1 = (w1_bq2022_battery_id abi s2).1 := by
    intro h
    have hne : ∀ i : Fin 128, i ∈ ([0, 1, 2, 3, 8] : List (Fin 128)) → i ≠ lowByteIndex abi := by
      intro i hi
      unfold lowByteIndex
      split <;> revert i <;> decide
    have h0 := h 0 (by simp) (hne 0 (by simp))
    have h1 := h 1 (by simp) (hne 1 (by simp))
    have h2 := h 2 (by simp) (hne 2 (by simp))
    have h3 := h 3 (by simp) (hne 3 (by simp))
    have h8 := h 8 (by simp) (hne 8 (by simp))
    have hw := loadWord_high abi s1.batt_crypt_info s2.batt_crypt_info
      (fun i hi hn => h i (by simp at hi ⊢; tauto) hn)
    apply battery_id_of_macros
    · simp only [GEN_PSEUDO_HEADER, h0, h1, h2, h3]
    · simp only [GEN_PSEUDO_INFO, and_high_mask _ (loadWord_lt _ _ _ _ _), hw, h8]
  refine ⟨fun h => key (fun i hi _ => h i hi), key, ?_⟩
  have a := (s1.batt_crypt_info 60).isLt
  have b := (s1.batt_crypt_info 63).isLt
  cases hb : abi.bigEndian <;> simp only [loadWord, lowByteIndex, hb] <;> simp <;> omega

theorem battery_id_depends_on_witness :
    (∀ i, i ∈ ([0, 1, 2, 3, 8, 60, 61, 62, 63] : List (Fin 128)) → i ≠ lowByteIndex armLE →
        (cached (idBlock 0x10139461 0x00 0x00)).batt_crypt_info i
          = (cached (idBlock 0x10139461 0xFF 0xAA)).batt_crypt_info i)
    ∧ (cached (idBlock 0x10139461 0x00 0x00)).batt_crypt_info 60
        ≠ (cached (idBlock 0x10139461 0xFF 0xAA)).batt_crypt_info 60
    ∧ (w1_bq2022_battery_id armLE (cached (idBlock 0x10139461 0x00 0x00))).1
        = (w1_bq2022_battery_id armLE (cached (idBlock 0x10139461 0xFF 0xAA))).1 :=
  ⟨by decide, by decide,
    (battery_id_depends_on armLE (cached (idBlock 0x10139461 0x00 0x00))
      (cached (idBlock 0x10139461 0xFF 0xAA))).2.1 (by decide)⟩

/-- A pass that ends before the block read has failed. -/
theorem failed_of_beforeBlockRead (a : Attempt) (h : a.beforeBlockRead = true) :
    a.failed = true := by
  cases a <;> simp_all [Attempt.beforeBlockRead, Attempt.failed]

/-! ## The command and the frame of the read: claims C13, C14 -/

/-- C13. In every pass whose bus reset succeeds, exactly one block is written
to the bus, the 4 bytes 0xCC, 0xF0, 0x00, 0x00, right after the reset; the next
transport call reads one byte, and the pass goes on to the 128-byte read if
and only if that byte is the CRC-8 of the 3 bytes 0xF0, 0x00, 0x00. -/
theorem attempt_command {β : Type} (B : W1Bus β) (m : Nat) (s : Sys β)
    (hreset : (B.w1_reset_bus m s.bus).1 = 0) :
    ∃ rest, (w1_bq2022_attempt B m s).2.trace
        = s.trace ++ [BusEvent.reset m 0, BusEvent.writeBlock m [0xCC, 0xF0, 0x00, 0x00],
            BusEvent.read8 m (B.w1_read_8 m (B.w1_write_block m [0xCC, 0xF0, 0x00, 0x00]
              (B.w1_reset_bus m s.bus).2)).1] ++ rest
      ∧ writtenBlocks rest = []
      ∧ (hasBlockRead rest = true ↔
          (B.w1_read_8 m (B.w1_write_block m [0xCC, 0xF0, 0x00, 0x00]
              (B.w1_reset_bus m s.bus).2)).1 = B.w1_calc_crc8 [0xF0, 0x00, 0x00])
      ∧ ((w1_bq2022_attempt B m s).1.beforeBlockRead = false ↔
          (B.w1_read_8 m (B.w1_write_block m [0xCC, 0xF0, 0x00, 0x00]
              (B.w1_reset_bus m s.bus).2)).1 = B.w1_calc_crc8 [0xF0, 0x00, 0x00]) := by
  unfold w1_bq2022_attempt
  simp only []
  split_ifs with h1 h2 h3
  · exact absurd hreset h1
  · simp only [busReset, busWriteBlock, busRead8, HDQ_CMD_SKIP_ROM, HDQ_CMD_READ_FIELD,
      List.drop, List.take] at h2
    simp [busReset, busWriteBlock, busRead8, hreset, HDQ_CMD_SKIP_ROM, HDQ_CMD_READ_FIELD,
      hasBlockRead, writtenBlocks, Attempt.beforeBlockRead, Ne.symm h2]
  · simp only [busReset, busWriteBlock, busRead8, HDQ_CMD_SKIP_ROM, HDQ_CMD_READ_FIELD,
      List.drop, List.take, not_not] at h2
    simp [busReset, busWriteBlock, busRead8, busReadBlockIntoCache, hreset, HDQ_CMD_SKIP_ROM,
      HDQ_CMD_READ_FIELD, hasBlockRead, writtenBlocks, Attempt.beforeBlockRead, ← h2]
  · simp only [busReset, busWriteBlock, busRead8, HDQ_CMD_SKIP_ROM, HDQ_CMD_READ_FIELD,
      List.drop, List.take, not_not] at h2
    simp [busReset, busWriteBlock, busRead8, busReadBlockIntoCache, hreset, HDQ_CMD_SKIP_ROM,
      HDQ_CMD_READ_FIELD, hasBlockRead, writtenBlocks, Attempt.beforeBlockRead, ← h2]

theorem attempt_command_witness :
    (neverVerifiedBus.w1_reset_bus 0 (tracked zeroBlock (⟨0, false⟩ : ScriptState)).bus).1 = 0
    ∧ ∃ rest, (w1_bq2022_attempt neverVerifiedBus 0 (tracked zeroBlock ⟨0, false⟩)).2.trace
        = (tracked zeroBlock (⟨0, false⟩ : ScriptState)).trace
          ++ [BusEvent.reset 0 0, BusEvent.writeBlock 0 [0xCC, 0xF0, 0x00, 0x00],
            BusEvent.read8 0 (neverVerifiedBus.w1_read_8 0 (neverVerifiedBus.w1_write_block 0
              [0xCC, 0xF0, 0x00, 0x00] (neverVerifiedBus.w1_reset_bus 0
                (tracked zeroBlock (⟨0, false⟩ : ScriptState)).bus).2)).1] ++ rest
      ∧ writtenBlocks rest = []
      ∧ hasBlockRead rest = true :=
  ⟨rfl, (attempt_command neverVerifiedBus 0 (tracked zeroBlock ⟨0, false⟩) rfl).imp
    (fun _ h => ⟨h.1, h.2.1, h.2.2.1.mpr (by decide!)⟩)⟩

/-- C14. When a slave is tracked and no pass gets past the command CRC check
(each of the 5 fails at the reset or at the command CRC), the read returns -1
and the buffer is byte for byte as before. For every read, of any state: if
the buffer differs after the call, some pass made the 128-byte read. -/
theorem read_cache_frame {β : Type} (B : W1Bus β) (s : Sys β) (sl : W1Slave)
    (hs : s.bq2022_slave = some sl)
    (h : ∀ j, j < 5 → (attemptOutcome B sl.master s j).beforeBlockRead = true) :
    (w1_bq2022_read B s).1 = -1
    ∧ (w1_bq2022_read B s).2.batt_crypt_info = s.batt_crypt_info
    ∧ ∀ t : Sys β, ∃ evs, (w1_bq2022_read B t).2.trace = t.trace ++ evs
        ∧ ((w1_bq2022_read B t).2.batt_crypt_info ≠ t.batt_crypt_info →
            hasBlockRead evs = true) := by
  have hr : w1_bq2022_read B s = (-1, afterAttempts B sl.master 5 s) := by
    unfold w1_bq2022_read
    rw [hs]
    exact read_retry_all_failed B sl.master 5 s
      (fun j hj => failed_of_beforeBlockRead _ (h j hj))
  refine ⟨by rw [hr], ?_, ?_⟩
  · rw [hr]
    exact afterAttempts_beforeBlockRead B sl.master 5 s h
  · intro t
    obtain ⟨-, evs, ht, hc⟩ := read_frame B t
    refine ⟨evs, ht, ?_⟩
    intro hne
    by_contra hno
    apply hne
    apply blockBytes_injective
    rw [hc, cacheAfter_of_no_block_read _ _ (by simpa using hno)]

theorem read_cache_frame_witness :
    (w1_bq2022_read noBlockBus (tracked (idBlock 0x10139465 0 0) ⟨0, false⟩)).1 = -1
    ∧ (w1_bq2022_read noBlockBus (tracked (idBlock 0x10139465 0 0) ⟨0, false⟩)).2.batt_crypt_info
        = (tracked (idBlock 0x10139465 0 0) (⟨0, false⟩ : ScriptState)).batt_crypt_info :=
  have h := read_cache_frame noBlockBus (tracked (idBlock 0x10139465 0 0) ⟨0, false⟩)
    { master := 0 } rfl (by decide!)
  ⟨h.1, h.2.1⟩

end W1Bq2022
